import Mathlib

/-!
Verification of the classification-and-deduplication pipeline of the FDA
food-recall Slack bot (`fda_recalls_bot.py`).

The Python source is shallowly embedded below.  Strings are modelled by
Lean `String` (a list of unicode characters, like Python `str`); Python's
substring test `needle in hay` is `containsSub`, Python's `str.lower` is
`lowerString` (ASCII case folding, as all keywords in the program are
ASCII), and Python's lexicographic string comparison is `lexLtB` on the
character lists.  A recall record is modelled with all of its optional
fields present (absent fields in the Python code are immediately replaced
by default strings via `dict.get`, so a record is identified with the
field values the code actually uses).  Network and file I/O (the FDA API
fetch used by the statistics generator) is modelled by passing the fetch
collaborator as an explicit function argument.
-/

namespace FdaBot

/-! ### Basic string machinery -/

/-- Python `needle in hay` on characters: `needle` is a prefix of `hay`. -/
def startsList : List Char → List Char → Bool
  | [], _ => true
  | _ :: _, [] => false
  | a :: as, b :: bs => a == b && startsList as bs

/-- Python `needle in hay` (substring containment), on character lists. -/
def isInfixB : List Char → List Char → Bool
  | needle, [] => needle.isEmpty
  | needle, b :: bs => startsList needle (b :: bs) || isInfixB needle bs

/-- Python `needle in hay` for strings. -/
def containsSub (hay needle : String) : Bool :=
  isInfixB needle.data hay.data

/-- Python `str.lower` (ASCII case folding; every keyword in the program is ASCII). -/
def lowerString (s : String) : String :=
  String.mk (s.data.map Char.toLower)

/-- Python `a < b` on single characters: comparison of code points. -/
def charLtB (a b : Char) : Bool :=
  a.toNat < b.toNat

/-- Python `a < b` on strings (character lists): lexicographic comparison
of code points, a proper prefix being smaller. -/
def lexLtB : List Char → List Char → Bool
  | _, [] => false
  | [], _ :: _ => true
  | a :: as, b :: bs => charLtB a b || (a == b && lexLtB as bs)

/-- Python `a < b` for strings. -/
def strLtB (a b : String) : Bool :=
  lexLtB a.data b.data

/-- Python `a <= b` for strings (total order, so `¬ b < a`). -/
def strLeB (a b : String) : Bool :=
  !(strLtB b a)

/-! ### The recall record

Modelled with the five free-text fields and the report date the program
reads.  The Python code fetches records as JSON dictionaries and
immediately substitutes a default string for any absent field
(`recall.get(k, default)`); a record is therefore modelled by the string
values those lookups produce. -/

structure Record where
  report_date : String
  product_description : String
  reason_for_recall : String
  recalling_firm : String
  distribution_pattern : String
  classification : String
deriving DecidableEq

/-! ### `categorize_allergen` (lines 63-83) -/

/-- The allergen keyword table, in the source's dictionary insertion order. -/
def allergenGroups : List (String × List String) :=
  [("milk", ["milk", "dairy", "lactose", "whey"]),
   ("eggs", ["egg"]),
   ("fish", ["fish", "shellfish", "seafood"]),
   ("crustacean", ["crab", "lobster", "shrimp", "crustacean"]),
   ("tree nuts", ["almond", "walnut", "cashew", "pecan", "pistachio", "hazelnut",
                  "macadamia", "tree nut"]),
   ("peanuts", ["peanut", "arachis"]),
   ("wheat", ["wheat", "gluten"]),
   ("soy", ["soy", "soya", "soybean"]),
   ("sesame", ["sesame"]),
   ("sulfites", ["sulfite", "sulphite"])]

/-- `categorize_allergen(reason)`: lower-case the reason, and collect (in
table order) every allergen group one of whose keywords occurs in it. -/
def categorize_allergen (reason : String) : List String :=
  let r := lowerString reason
  allergenGroups.filterMap fun p =>
    if p.2.any (fun keyword => containsSub r keyword) then some p.1 else none

/-! ### `categorize_recall_type` (lines 86-105) -/

/-- The recall-type keyword table, in the source's dictionary insertion order. -/
def recallPatterns : List (String × List String) :=
  [("allergen", ["undeclared", "allergen", "allergic", "allergy"]),
   ("bacteria", ["listeria", "e. coli", "e.coli", "salmonella", "botulism", "clostridium"]),
   ("foreign_material", ["foreign", "metal", "plastic", "glass", "wood", "extraneous material"]),
   ("mislabeling", ["mislabel", "misbranded", "incorrect label", "improper label"]),
   ("quality", ["quality", "mold", "spoilage", "deterioration"]),
   ("processing", ["processing", "underprocessed", "under-processed", "temperature abuse"]),
   ("unauthorized", ["unapproved", "unauthorized", "not approved", "illegal"])]

/-- The `for`-loop of `categorize_recall_type`: return the first group with
a keyword occurring in `r`, else `"other"`. -/
def firstType : List (String × List String) → String → String
  | [], _ => "other"
  | p :: rest, r =>
    if p.2.any (fun keyword => containsSub r keyword) then p.1 else firstType rest r

/-- `categorize_recall_type(reason)`. -/
def categorize_recall_type (reason : String) : String :=
  firstType recallPatterns (lowerString reason)

/-! ### `determine_priority` (lines 108-133) -/

/-- `determine_priority(recall)`: the ordered decision list of the source,
first matching rule wins. -/
def determine_priority (record : Record) : String :=
  let reason := lowerString record.reason_for_recall
  let classification := record.classification
  if containsSub (lowerString classification) "class i" then "high"
  else if ["listeria", "e. coli", "e.coli", "salmonella", "botulism"].any
      (fun term => containsSub reason term) then "high"
  else if ["peanut", "tree nut", "milk", "egg"].any
      (fun term => containsSub reason term) then "high"
  else if containsSub (lowerString classification) "class ii" &&
      ["undeclared", "allergen"].any (fun term => containsSub reason term) then "medium"
  else if containsSub (lowerString classification) "class ii" then "medium"
  else "low"

/-! ### `extract_states` (lines 136-179) -/

/-- The 51 US state / district abbreviations, in the source's order. -/
def stateAbbrevs : List String :=
  ["AL", "AK", "AZ", "AR", "CA", "CO", "CT", "DE", "FL", "GA",
   "HI", "ID", "IL", "IN", "IA", "KS", "KY", "LA", "ME", "MD",
   "MA", "MI", "MN", "MS", "MO", "MT", "NE", "NV", "NH", "NJ",
   "NM", "NY", "NC", "ND", "OH", "OK", "OR", "PA", "RI", "SC",
   "SD", "TN", "TX", "UT", "VT", "VA", "WA", "WV", "WI", "WY", "DC"]

/-- The full state names, parallel to `stateAbbrevs`. -/
def stateNames : List String :=
  ["Alabama", "Alaska", "Arizona", "Arkansas", "California", "Colorado",
   "Connecticut", "Delaware", "Florida", "Georgia", "Hawaii", "Idaho",
   "Illinois", "Indiana", "Iowa", "Kansas", "Kentucky", "Louisiana",
   "Maine", "Maryland", "Massachusetts", "Michigan", "Minnesota",
   "Mississippi", "Missouri", "Montana", "Nebraska", "Nevada",
   "New Hampshire", "New Jersey", "New Mexico", "New York",
   "North Carolina", "North Dakota", "Ohio", "Oklahoma", "Oregon",
   "Pennsylvania", "Rhode Island", "South Carolina", "South Dakota",
   "Tennessee", "Texas", "Utah", "Vermont", "Virginia", "Washington",
   "West Virginia", "Wisconsin", "Wyoming", "District of Columbia"]

/-- A regex word character (`\w`): letter, digit or underscore (ASCII). -/
def isWordChar (c : Char) : Bool :=
  c.isAlphanum || c == '_'

/-- `abbr` occurs at the head of `l` and is followed by the end of the
string or by a non-word character (the `ABBR(?:$|\W)` part of the regex). -/
def boundedHere : List Char → List Char → Bool
  | [], [] => true
  | [], c :: _ => !isWordChar c
  | _ :: _, [] => false
  | a :: as, c :: cs => a == c && boundedHere as cs

/-- Scan of `re.search(r'(?:^|\W)' + abbr + r'(?:$|\W)', text)`: `prevOk`
records whether the current position is the string start or is preceded by
a non-word character. -/
def boundedSearch (abbr : List Char) : Bool → List Char → Bool
  | prevOk, [] => prevOk && boundedHere abbr []
  | prevOk, c :: cs => (prevOk && boundedHere abbr (c :: cs)) || boundedSearch abbr (!isWordChar c) cs

/-- The abbreviation test of `extract_states`: a case-sensitive,
word-boundary-delimited occurrence of `abbr` in `text`. -/
def abbrevMatch (text abbr : String) : Bool :=
  boundedSearch abbr.data true text.data

/-- The short-circuit test: the lower-cased text contains "nationwide" or "national". -/
def nationwideCheck (text : String) : Bool :=
  containsSub (lowerString text) "nationwide" || containsSub (lowerString text) "national"

/-- The full-name scan of `extract_states`: abbreviations whose full state
name occurs, case-insensitively, as a substring of the text. -/
def nameMatches (text : String) : List String :=
  (stateAbbrevs.zip stateNames).filterMap fun p =>
    if containsSub (lowerString text) (lowerString p.2) then some p.1 else none

/-- Ascending string order (the order of Python `sorted` on strings). -/
def strLe (a b : String) : Prop :=
  strLeB a b = true

instance : DecidableRel strLe := fun a b => instDecidableEqBool (strLeB a b) true

/-- `extract_states(distribution_pattern)`: `["Nationwide"]` when the text
mentions nationwide/national distribution, otherwise the sorted set of
state abbreviations found either as bounded tokens (case-sensitively) or
via full state names (case-insensitively); `["Unspecified"]` when none. -/
def extract_states (distribution_pattern : String) : List String :=
  if nationwideCheck distribution_pattern then ["Nationwide"]
  else
    let found := (stateAbbrevs.filter (fun a => abbrevMatch distribution_pattern a)
      ++ nameMatches distribution_pattern).dedup
    if found.isEmpty then ["Unspecified"]
    else List.insertionSort strLe found

/-! ### `format_recall_for_slack`, classification slice (lines 190-207)

The formatter first truncates the product description and the recall
reason to 1000 characters (appending `"..."`), then classifies the recall:
the type and allergen classifications are computed from the *truncated*
reason, the priority from the *original* record, and the regions from the
distribution pattern.  The rendering of those fields into the Slack
attachment text (date pretty-printing, emoji and color choices) consumes
these values but computes no further classification, and is not modelled. -/

/-- The truncation step of `format_recall_for_slack` (lines 196-201),
with the configured `max_text_length = 1000`. -/
def truncateText (s : String) : String :=
  if s.length > 1000 then String.mk (s.data.take 1000) ++ "..." else s

/-- The classification fields computed by `format_recall_for_slack`. -/
structure FormatFields where
  recall_type : String
  allergens : List String
  priority : String
  states : List String
deriving DecidableEq

/-- Lines 196-207 of `format_recall_for_slack`: classify the truncated
reason, but derive the priority from the untruncated record. -/
def formatClassification (record : Record) : FormatFields :=
  let reason_for_recall := truncateText record.reason_for_recall
  { recall_type := categorize_recall_type reason_for_recall
    allergens := categorize_allergen reason_for_recall
    priority := determine_priority record
    states := extract_states record.distribution_pattern }

/-! ### `identify_new_recalls` (lines 266-294) -/

/-- The descending-by-`report_date` order used by
`sorted(..., key=lambda x: x.get('report_date', ...), reverse=True)`:
`a` comes before `b` when `a`'s date is not smaller.  Python's sort is
stable, as is `List.insertionSort` with this relation, so the embedding
reproduces the exact output order. -/
def dateGe (a b : Record) : Prop :=
  strLeB b.report_date a.report_date = true

instance : DecidableRel dateGe := fun a b =>
  instDecidableEqBool (strLeB b.report_date a.report_date) true

/-- `sorted(recalls, key=lambda x: x.get('report_date', ...), reverse=True)`. -/
def sortByDateDesc (l : List Record) : List Record :=
  List.insertionSort dateGe l

/-- `most_recent_date`: the `report_date` of the first record of the
previous snapshot sorted descending by date (`None` when the snapshot is
empty). -/
def mostRecentDate (previous : List Record) : Option String :=
  match sortByDateDesc previous with
  | [] => none
  | r :: _ => some r.report_date

/-- The novelty test of the loop body: the product description is unseen,
or (`most_recent_date` is truthy, i.e. neither `None` nor the empty
string, and) the report date is strictly newer. -/
def isNewB (previous : List Record) (r : Record) : Bool :=
  !((previous.map Record.product_description).contains r.product_description)
  || (match mostRecentDate previous with
      | none => false
      | some d => !(d == "") && strLtB d r.report_date)

/-- `identify_new_recalls(current_recalls, previous_recalls)`. -/
def identify_new_recalls (current previous : List Record) : List Record :=
  sortByDateDesc (current.filter (isNewB previous))

/-! ### `generate_recall_stats` (lines 304-401) -/

/-- A Slack block of the statistics payload: a `header` block or a
markdown `section` block (`sect`). -/
inductive SBlock where
  | header (text : String)
  | sect (text : String)
deriving DecidableEq

/-- The text carried by a block. -/
def SBlock.textOf : SBlock → String
  | .header t => t
  | .sect t => t

/-- The value returned by `generate_recall_stats`: either the bare
"no data" string, or the Slack message dictionary (blocks, fallback text,
color). -/
inductive StatsOutput where
  | message (s : String)
  | payload (blocks : List SBlock) (text : String) (color : String)
deriving DecidableEq

/-- One step of `counts[k] = counts.get(k, 0) + 1` on a Python dict,
modelled as an association list in key insertion order. -/
def bump : List (String × Nat) → String → List (String × Nat)
  | [], k => [(k, 1)]
  | (k0, n) :: rest, k => if k0 = k then (k0, n + 1) :: rest else (k0, n) :: bump rest k

/-- Descending order on counts (`sorted(..., key=lambda x: x[1], reverse=True)`,
which is stable, as is `insertionSort` with this relation). -/
def countGe (a b : String × Nat) : Prop :=
  b.2 ≤ a.2

instance : DecidableRel countGe := fun a b => Nat.decLe b.2 a.2

/-- Python `str.replace('_', ' ')`. -/
def underscoreToSpace (s : String) : String :=
  String.mk (s.data.map fun c => if c == '_' then ' ' else c)

/-- The character map of Python `str.title`: the first letter of each word
is upper-cased, the rest lower-cased; `prevCased` tells whether the
previous character was a letter. -/
def titleChars : Bool → List Char → List Char
  | _, [] => []
  | prevCased, c :: cs =>
    (if prevCased then c.toLower else c.toUpper) :: titleChars c.isAlpha cs

/-- Python `str.title` (ASCII; every tallied tag is an ASCII keyword). -/
def titleCase (s : String) : String :=
  String.mk (titleChars false s.data)

/-- The percentage `count/total*100` rendered with Python's `:.1f` (one
decimal place).  Modelled at exact rational precision with
round-half-to-even; CPython formats the IEEE double `count/total*100`,
which agrees except when the double's representation error crosses a
rounding boundary (no tallied percentage in the claims is such a case). -/
def pctString (count total : Nat) : String :=
  let scaled := count * 1000
  let q := scaled / total
  let r := scaled % total
  let rounded :=
    if total < 2 * r then q + 1
    else if 2 * r < total then q
    else if q % 2 = 0 then q else q + 1
  toString (rounded / 10) ++ "." ++ toString (rounded % 10)

/-- One line of the "Top Recall Types" section. -/
def typeLine (total : Nat) (p : String × Nat) : String :=
  "• " ++ titleCase (underscoreToSpace p.1) ++ ": " ++ toString p.2 ++ " recalls ("
    ++ pctString p.2 total ++ "%)"

/-- One line of the "Top Allergen Concerns" section. -/
def allergenLine (p : String × Nat) : String :=
  "• " ++ titleCase p.1 ++ ": " ++ toString p.2 ++ " recalls"

/-- The block list built by `generate_recall_stats` (lines 313-395) for
the record window it tallies: header and summary, the top recall types
(at most 5, sorted by count descending, with percentage of the window),
and — only when at least one allergen was counted — the top allergens (at
most 5, raw counts).  The state tallies (`state_counts`, lines 331-335)
are computed exactly as in the source but appear in no block. -/
def statsBlocks (recalls : List Record) : List SBlock :=
  let typeCounts := recalls.foldl
    (fun acc r => bump acc (categorize_recall_type r.reason_for_recall)) []
  let allergenCounts := recalls.foldl
    (fun acc r => (categorize_allergen r.reason_for_recall).foldl bump acc) []
  let stateCounts := recalls.foldl
    (fun acc r => (((extract_states r.distribution_pattern).filter
      (fun s => !(s == "Nationwide") && !(s == "Unspecified"))).foldl bump acc)) []
  let sortedTypes := (List.insertionSort countGe typeCounts).take 5
  let typeText := String.intercalate "\n" (sortedTypes.map (typeLine recalls.length))
  let _ := stateCounts
  [SBlock.header ":bar_chart: FDA Recall Statistics",
   SBlock.sect ("*Based on the last " ++ toString recalls.length ++ " FDA food recalls*"),
   SBlock.sect "*Top Recall Types:*",
   SBlock.sect typeText]
  ++ (if allergenCounts.isEmpty then []
      else
        let sortedAllergens := (List.insertionSort countGe allergenCounts).take 5
        [SBlock.sect "*Top Allergen Concerns:*",
         SBlock.sect (String.intercalate "\n" (sortedAllergens.map allergenLine))])

/-- `generate_recall_stats(recalls, limit=1000, days_for_stats=90)`.  The
fetch collaborator `get_recalls_from_api` is network I/O and is passed as
an explicit function `fetch limit days_back`; the source re-fetches a
wider window whenever fewer than `limit` records were supplied. -/
def generate_recall_stats (fetch : Nat → Nat → List Record) (recallsIn : List Record)
    (limit daysForStats : Nat) : StatsOutput :=
  if recallsIn.isEmpty then StatsOutput.message "No data available for statistics."
  else
    let recalls := if recallsIn.length < limit then fetch limit daysForStats else recallsIn
    StatsOutput.payload (statsBlocks recalls) "FDA Recall Statistics Summary" "#2196F3"

/-! ### Spec-side enumerations and predicates, and concrete inputs -/

/-- The 8 recall-type values of the specification's closed enumeration. -/
def recallTypeValues : List String :=
  ["allergen", "bacteria", "foreign_material", "mislabeling", "quality",
   "processing", "unauthorized", "other"]

/-- The 10 allergen classes of the specification's closed enumeration. -/
def allergenValues : List String :=
  ["milk", "eggs", "fish", "crustacean", "tree nuts", "peanuts", "wheat",
   "soy", "sesame", "sulfites"]

/-- The novelty condition exactly as the claim states it: the product
description is absent from the previous descriptions, or the report date
is strictly greater (lexicographically) than the maximum report date
among the previous records. -/
abbrev claimNewOrig (previous : List Record) (r : Record) : Prop :=
  r.product_description ∉ previous.map Record.product_description
  ∨ ∃ m ∈ previous.map Record.report_date,
      (∀ d ∈ previous.map Record.report_date, strLeB d m = true)
      ∧ strLtB m r.report_date = true

/-- The novelty condition as the code implements it: as `claimNewOrig`,
except that the date clause additionally requires the maximum previous
report date to be non-empty (Python's `most_recent_date and ...` treats
the empty string as falsy). -/
abbrev claimNewAmended (previous : List Record) (r : Record) : Prop :=
  r.product_description ∉ previous.map Record.product_description
  ∨ ∃ m ∈ previous.map Record.report_date,
      (∀ d ∈ previous.map Record.report_date, strLeB d m = true)
      ∧ m ≠ "" ∧ strLtB m r.report_date = true

/-- The scenario record of the spec: only the four mentioned fields are
given; the remaining two take the defaults the formatter substitutes. -/
def c1Record : Record :=
  { report_date := "20240115"
    product_description := "No description available"
    reason_for_recall := "undeclared peanut allergen"
    recalling_firm := "Not specified"
    distribution_pattern := "Nationwide"
    classification := "Class II" }

/-- A previous-snapshot record whose report date is the empty string. -/
def emptyDatePrev : Record := ⟨"", "A", "", "", "", ""⟩

/-- A current record with the same product description and a later date. -/
def newerCurrent : Record := ⟨"20240101", "A", "", "", "", ""⟩

/-- A reason text whose only keywords ("undeclared", "peanut") start
after character position 1000. -/
def longReason : String :=
  String.mk (List.replicate 1000 'x') ++ " undeclared peanut"

/-- A record whose reason's only keywords lie beyond the truncation limit. -/
def lateKeywordRecord : Record :=
  ⟨"20240101", "p", longReason, "f", "CA", "Class II"⟩

/-- A 1001-character string, above the truncation limit. -/
def longProduct : String :=
  String.mk (List.replicate 1001 'a')

/-- A record recalled for an undeclared peanut allergen, distributed to CA. -/
def statRecord : Record :=
  ⟨"20240110", "p", "undeclared peanut", "f", "CA", "Class II"⟩

/-- A fetch collaborator whose wider-window re-fetch returns `[statRecord]`. -/
def statFetch : Nat → Nat → List Record := fun _ _ => [statRecord]

/-- The full statistics payload blocks for the single record `statRecord`:
type and allergen sections are present, and no block mentions the
record's distribution state. -/
def statBlocksExpected : List SBlock :=
  [SBlock.header ":bar_chart: FDA Recall Statistics",
   SBlock.sect "*Based on the last 1 FDA food recalls*",
   SBlock.sect "*Top Recall Types:*",
   SBlock.sect "• Allergen: 1 recalls (100.0%)",
   SBlock.sect "*Top Allergen Concerns:*",
   SBlock.sect "• Peanuts: 1 recalls"]

/-! ### Facts about the string machinery -/

theorem startsList_iff : ∀ (n h : List Char), startsList n h = true ↔ n <+: h
  | [], h => by simp [startsList]
  | _ :: _, [] => by simp [startsList]
  | a :: as, b :: bs => by
    simp [startsList, List.cons_prefix_cons, startsList_iff as bs, Bool.and_eq_true,
      beq_iff_eq]

theorem isInfixB_iff : ∀ (n h : List Char), isInfixB n h = true ↔ n <:+: h
  | n, [] => by simp [isInfixB, List.isEmpty_iff]
  | n, b :: bs => by
    simp only [isInfixB, Bool.or_eq_true, startsList_iff, isInfixB_iff n bs,
      List.infix_cons_iff]

theorem containsSub_iff {hay needle : String} :
    containsSub hay needle = true ↔ needle.data <:+: hay.data :=
  isInfixB_iff needle.data hay.data

/-- Substring containment survives a character-by-character map (used for
case folding: if the raw text contains a keyword, the lower-cased text
contains the lower-cased keyword). -/
theorem containsSub_lower {hay needle : String} (h : containsSub hay needle = true) :
    containsSub (lowerString hay) (lowerString needle) = true := by
  rw [containsSub_iff] at h ⊢
  rcases h with ⟨s, t, hst⟩
  refine ⟨s.map Char.toLower, t.map Char.toLower, ?_⟩
  simpa [lowerString] using congrArg (List.map Char.toLower) hst

theorem char_toNat_inj {a b : Char} (h : a.toNat = b.toNat) : a = b := by
  apply Char.ext
  exact UInt32.toNat.inj h

theorem lexLtB_irrefl : ∀ l : List Char, lexLtB l l = false
  | [] => rfl
  | a :: as => by simp [lexLtB, charLtB, lexLtB_irrefl as]

theorem lexLtB_trans : ∀ {a b c : List Char},
    lexLtB a b = true → lexLtB b c = true → lexLtB a c = true
  | _, _, [], _, h => by simp [lexLtB] at h
  | [], _ :: _, _ :: _, _, _ => rfl
  | _ :: _, [], _, h, _ => by simp [lexLtB] at h
  | a :: as, b :: bs, c :: cs, h₁, h₂ => by
    simp only [lexLtB, Bool.or_eq_true, Bool.and_eq_true, beq_iff_eq, charLtB,
      decide_eq_true_eq] at h₁ h₂ ⊢
    rcases h₁ with h₁ | ⟨rfl, h₁⟩ <;> rcases h₂ with h₂ | ⟨rfl, h₂⟩
    · exact Or.inl (Nat.lt_trans h₁ h₂)
    · exact Or.inl h₁
    · exact Or.inl h₂
    · exact Or.inr ⟨rfl, lexLtB_trans h₁ h₂⟩

theorem lexLtB_connex : ∀ {a b : List Char},
    lexLtB a b = false → lexLtB b a = false → a = b
  | [], [], _, _ => rfl
  | [], _ :: _, h, _ => by simp [lexLtB] at h
  | _ :: _, [], _, h => by simp [lexLtB] at h
  | a :: as, b :: bs, h₁, h₂ => by
    simp only [lexLtB, Bool.or_eq_false_iff, Bool.and_eq_false_iff, charLtB,
      decide_eq_false_iff_not, Nat.not_lt] at h₁ h₂
    have hab : a = b := char_toNat_inj (Nat.le_antisymm h₂.1 h₁.1)
    subst hab
    rcases h₁.2 with h₁' | h₁'
    · simp at h₁'
    · rcases h₂.2 with h₂' | h₂'
      · simp at h₂'
      · exact congrArg (a :: ·) (lexLtB_connex h₁' h₂')

theorem lexLtB_asymm {a b : List Char} (h : lexLtB a b = true) : lexLtB b a = false := by
  by_contra hc
  have hba : lexLtB b a = true := by
    cases hh : lexLtB b a
    · exact absurd hh hc
    · rfl
  have := lexLtB_trans h hba
  rw [lexLtB_irrefl] at this
  exact Bool.noConfusion this

/-- Ascending `strLe` is total. -/
theorem strLe_isTotal : IsTotal String strLe :=
  ⟨fun a b => by
    unfold strLe strLeB
    cases h : strLtB b a
    · exact Or.inl (by simp)
    · exact Or.inr (by simp [strLtB, lexLtB_asymm h])⟩

/-- Ascending `strLe` is transitive. -/
theorem strLe_isTrans : IsTrans String strLe :=
  ⟨fun a b c hab hbc => by
    unfold strLe strLeB strLtB at hab hbc ⊢
    simp only [Bool.not_eq_true'] at hab hbc ⊢
    cases hca : lexLtB c.data a.data
    · rfl
    · cases hba : lexLtB a.data b.data
      · have hba' : b.data = a.data := lexLtB_connex hab hba
        rw [hba'] at hbc
        rw [hca] at hbc
        exact hbc
      · have := lexLtB_trans hca hba
        rw [this] at hbc
        exact hbc⟩

/-- The descending date order `dateGe` is total. -/
theorem dateGe_isTotal : IsTotal Record dateGe :=
  ⟨fun a b => (strLe_isTotal.total b.report_date a.report_date).elim Or.inl Or.inr⟩

/-- The descending date order `dateGe` is transitive. -/
theorem dateGe_isTrans : IsTrans Record dateGe :=
  ⟨fun _ _ _ hab hbc => strLe_isTrans.trans _ _ _ hbc hab⟩

/-! ### Helper lemmas for the claim theorems -/

theorem firstType_eq_find (r : String) :
    ∀ ps : List (String × List String),
      firstType ps r
        = ((ps.find? fun p => p.2.any fun k => containsSub r k).map Prod.fst).getD "other"
  | [] => rfl
  | p :: rest => by
    cases h : p.2.any fun k => containsSub r k
    · simp [firstType, h, List.find?_cons, firstType_eq_find r rest]
    · simp [firstType, h, List.find?_cons]

theorem recallPatterns_keys :
    ∀ p ∈ recallPatterns, p.1 ∈ recallTypeValues := by decide

theorem allergenGroups_keys :
    ∀ p ∈ allergenGroups, p.1 ∈ allergenValues := by decide

/-! ### Claim theorems -/

/-- C3: for every text input, `categorize_recall_type` returns one of the
8 enumerated values, and it returns the key of the first keyword group of
`recallPatterns` (in that fixed order) with a keyword occurring in the
lower-cased text, `"other"` when no group matches. -/
theorem c3_recall_type_total_first_match (t : String) :
    categorize_recall_type t ∈ recallTypeValues
    ∧ categorize_recall_type t
        = ((recallPatterns.find? fun p =>
              p.2.any fun k => containsSub (lowerString t) k).map Prod.fst).getD "other" := by
  have heq := firstType_eq_find (lowerString t) recallPatterns
  refine ⟨?_, heq⟩
  rw [categorize_recall_type, heq]
  cases hf : recallPatterns.find? fun p => p.2.any fun k => containsSub (lowerString t) k with
  | none => simp [recallTypeValues]
  | some p =>
    have hp : p ∈ recallPatterns := List.mem_of_find?_eq_some hf
    simpa using recallPatterns_keys p hp

/-- C6: for every text input, `categorize_allergen` returns a subset of
the 10-allergen enumeration; a text containing "peanut" is tagged
`"peanuts"`, and a text containing "almond" is tagged `"tree nuts"`. -/
theorem c6_allergen_subset_keywords (t : String) :
    (∀ a ∈ categorize_allergen t, a ∈ allergenValues)
    ∧ (containsSub t "peanut" = true → "peanuts" ∈ categorize_allergen t)
    ∧ (containsSub t "almond" = true → "tree nuts" ∈ categorize_allergen t) := by
  refine ⟨?_, ?_, ?_⟩
  · intro a ha
    simp only [categorize_allergen, List.mem_filterMap] at ha
    obtain ⟨p, hp, hpa⟩ := ha
    have : a = p.1 := by
      by_cases h : p.2.any fun keyword => containsSub (lowerString t) keyword
      · rw [if_pos h] at hpa
        exact (Option.some.inj hpa).symm
      · rw [if_neg h] at hpa
        exact absurd hpa (Option.noConfusion)
    rw [this]
    exact allergenGroups_keys p hp
  · intro h
    have h' : containsSub (lowerString t) "peanut" = true := by
      have := containsSub_lower h
      rwa [show lowerString "peanut" = "peanut" from by decide] at this
    simp only [categorize_allergen, List.mem_filterMap]
    refine ⟨("peanuts", ["peanut", "arachis"]), by decide, ?_⟩
    simp [h']
  · intro h
    have h' : containsSub (lowerString t) "almond" = true := by
      have := containsSub_lower h
      rwa [show lowerString "almond" = "almond" from by decide] at this
    simp only [categorize_allergen, List.mem_filterMap]
    refine ⟨("tree nuts", ["almond", "walnut", "cashew", "pecan", "pistachio", "hazelnut",
      "macadamia", "tree nut"]), by decide, ?_⟩
    simp [h']

/-- C6 witness: a text containing both keywords receives both tags. -/
theorem c6_allergen_witness :
    "peanuts" ∈ categorize_allergen "peanut almond"
    ∧ "tree nuts" ∈ categorize_allergen "peanut almond" :=
  ⟨(c6_allergen_subset_keywords "peanut almond").2.1 (by decide),
   (c6_allergen_subset_keywords "peanut almond").2.2 (by decide)⟩

/-- C9: any record whose classification contains "class ii"
(case-insensitively) is assigned priority "high": the first rule's test
for "class i" already succeeds on such a classification, since "class i"
is a substring of "class ii". -/
theorem c9_class_ii_high (record : Record)
    (h : containsSub (lowerString record.classification) "class ii" = true) :
    determine_priority record = "high" := by
  have h1 : containsSub (lowerString record.classification) "class i" = true := by
    rw [containsSub_iff] at h ⊢
    have hsub : ("class i").data <:+: ("class ii").data := by decide
    exact hsub.trans h
  simp [determine_priority, h1]

/-- C9 witness: a Class II record gets priority "high". -/
theorem c9_class_ii_witness :
    determine_priority ⟨"", "", "", "", "", "Class II"⟩ = "high" :=
  c9_class_ii_high ⟨"", "", "", "", "", "Class II"⟩ (by decide)

/-- C4 counterexample: region extraction is not case-insensitive.  The
texts "CA" and "ca" are case variants of each other, yet the first
extracts the region set `{CA}` and the second `{Unspecified}` — the state
abbreviation scan only matches upper-case tokens. -/
theorem c4_case_counterexample :
    extract_states "CA" = ["CA"]
    ∧ extract_states "ca" = ["Unspecified"]
    ∧ lowerString "CA" = lowerString "ca" := by decide

/-- C4 amended: the nationwide short-circuit and the full-state-name scan
are case-insensitive — any two distribution texts with the same lower
casing agree on both — while the abbreviation scan is case-sensitive
(witnessed by `c4_case_counterexample`). -/
theorem c4_case_insensitive_components (s t : String)
    (h : lowerString s = lowerString t) :
    nationwideCheck s = nationwideCheck t ∧ nameMatches s = nameMatches t := by
  constructor
  · simp only [nationwideCheck, h]
  · simp only [nameMatches, h]

/-- C4 witness: two case variants of "Texas" agree on the nationwide flag
and on the full-name scan. -/
theorem c4_case_witness :
    nationwideCheck "Texas" = nationwideCheck "TEXAS"
    ∧ nameMatches "Texas" = nameMatches "TEXAS" :=
  c4_case_insensitive_components "Texas" "TEXAS" (by decide)

/-- C5: `extract_states` maps "Nationwide" to `["Nationwide"]`, the empty
string to `["Unspecified"]`, and "shipped to CA and Texas" to
`["CA", "TX"]`; and for every input the returned list is sorted
ascending in the string order. -/
theorem c5_extract_regions_values :
    extract_states "Nationwide" = ["Nationwide"]
    ∧ extract_states "" = ["Unspecified"]
    ∧ extract_states "shipped to CA and Texas" = ["CA", "TX"]
    ∧ ∀ t : String, (extract_states t).Sorted strLe := by
  refine ⟨by decide, by decide, by decide, ?_⟩
  intro t
  haveI := strLe_isTotal
  haveI := strLe_isTrans
  unfold extract_states
  split
  · simp
  · dsimp only
    split
    · simp
    · exact List.sorted_insertionSort strLe _

/-- C7: the formatter's truncation leaves a string of length at most 1000
unchanged, and cuts a longer string to exactly its first 1000 characters
followed by the three-character ellipsis marker "...". -/
theorem c7_truncation (s : String) :
    (s.length ≤ 1000 → truncateText s = s)
    ∧ (1000 < s.length →
        (truncateText s).length = 1003
        ∧ (truncateText s).data = s.data.take 1000 ++ ('.' :: '.' :: '.' :: [])) := by
  constructor
  · intro h
    unfold truncateText
    rw [if_neg (by omega)]
  · intro h
    have hdata : s.length = s.data.length := rfl
    unfold truncateText
    rw [if_pos (by omega)]
    constructor
    · rw [String.length_append]
      have h3 : ("..." : String).length = 3 := rfl
      have h4 : (String.mk (s.data.take 1000)).length = (s.data.take 1000).length := rfl
      rw [h3, h4, List.length_take]
      omega
    · rw [String.data_append]

set_option maxRecDepth 10000 in
/-- C7 witness: a 3-character string is untouched; a 1001-character
string is truncated to length 1003 (1000 characters plus "..."). -/
theorem c7_truncation_witness :
    truncateText "abc" = "abc" ∧ (truncateText longProduct).length = 1003 :=
  ⟨(c7_truncation "abc").1 (by decide),
   ((c7_truncation longProduct).2 (by
      have hl : longProduct.length = 1001 := by
        show (List.replicate 1001 (Char.ofNat 97)).length = 1001
        rw [List.length_replicate]
      omega)).1⟩

/-- C1 counterexample: on the spec's scenario record (reason "undeclared
peanut allergen", classification "Class II") the priority is "high",
not "medium": rule 1 fires because "class i" is a substring of the
lower-cased "class ii" (and rule 3's "peanut" test would fire before
rule 4 in any case). -/
theorem c1_priority_not_medium :
    determine_priority c1Record = "high" ∧ determine_priority c1Record ≠ "medium" := by
  decide

/-- C1 amended: the scenario record is classified as an allergen recall
with allergen set {peanuts} and regions {Nationwide}, and its priority is
"high". -/
theorem c1_scenario_amended :
    formatClassification c1Record
      = { recall_type := "allergen", allergens := ["peanuts"],
          priority := "high", states := ["Nationwide"] } := by
  decide

/-! ### C2: the novelty detector -/

theorem sortByDateDesc_perm (l : List Record) : (sortByDateDesc l).Perm l :=
  List.perm_insertionSort dateGe l

theorem sortByDateDesc_sorted (l : List Record) : (sortByDateDesc l).Sorted dateGe := by
  haveI := dateGe_isTotal
  haveI := dateGe_isTrans
  exact List.sorted_insertionSort dateGe l

theorem strLeB_refl (s : String) : strLeB s s = true := by
  unfold strLeB strLtB
  rw [lexLtB_irrefl]
  rfl

theorem strLeB_antisymm {a b : String} (h1 : strLeB a b = true) (h2 : strLeB b a = true) :
    a = b := by
  unfold strLeB strLtB at h1 h2
  simp only [Bool.not_eq_true'] at h1 h2
  exact String.toList_inj.mp (lexLtB_connex h2 h1)

theorem mostRecentDate_none_iff {previous : List Record} :
    mostRecentDate previous = none ↔ previous = [] := by
  unfold mostRecentDate
  cases hs : sortByDateDesc previous with
  | nil =>
    constructor
    · intro _
      have hlen := (sortByDateDesc_perm previous).length_eq
      rw [hs] at hlen
      exact List.length_eq_zero.mp hlen.symm
    · intro _
      rfl
  | cons r t =>
    constructor
    · intro hcontr
      exact Option.noConfusion hcontr
    · intro hprev
      subst hprev
      rw [show sortByDateDesc [] = [] from rfl] at hs
      exact List.noConfusion hs

/-- `most_recent_date`, when present, is the maximum report date of the
previous snapshot. -/
theorem mostRecentDate_spec {previous : List Record} {m : String}
    (h : mostRecentDate previous = some m) :
    m ∈ previous.map Record.report_date
    ∧ ∀ d ∈ previous.map Record.report_date, strLeB d m = true := by
  unfold mostRecentDate at h
  cases hs : sortByDateDesc previous with
  | nil =>
    rw [hs] at h
    exact Option.noConfusion h
  | cons r t =>
    rw [hs] at h
    have hm : r.report_date = m := Option.some.inj h
    have hperm := sortByDateDesc_perm previous
    rw [hs] at hperm
    have hsorted := sortByDateDesc_sorted previous
    rw [hs] at hsorted
    constructor
    · rw [← hm]
      exact List.mem_map_of_mem Record.report_date (hperm.subset (List.mem_cons_self r t))
    · intro d hd
      obtain ⟨p, hp, hpd⟩ := List.mem_map.mp hd
      have hpmem : p ∈ r :: t := hperm.mem_iff.mpr hp
      rcases List.mem_cons.mp hpmem with rfl | hpt
      · rw [← hpd, ← hm]
        exact strLeB_refl _
      · have hrp := (List.sorted_cons.mp hsorted).1 p hpt
        rw [← hpd, ← hm]
        exact hrp

theorem contains_iff_mem {l : List String} {a : String} :
    l.contains a = true ↔ a ∈ l := by
  simp [List.contains, List.elem_iff]

/-- The loop test of `identify_new_recalls` is exactly the amended
novelty condition. -/
theorem isNewB_iff (previous : List Record) (r : Record) :
    isNewB previous r = true ↔ claimNewAmended previous r := by
  unfold isNewB claimNewAmended
  cases hm : mostRecentDate previous with
  | none =>
    have hprev : previous = [] := mostRecentDate_none_iff.mp hm
    subst hprev
    simp
  | some d =>
    have hspec := mostRecentDate_spec hm
    simp only [Bool.or_eq_true, Bool.and_eq_true, Bool.not_eq_true', beq_eq_false_iff_ne]
    constructor
    · intro h
      rcases h with h | ⟨hne, hlt⟩
      · exact Or.inl (fun hmem => by rw [contains_iff_mem.mpr hmem] at h; exact Bool.noConfusion h)
      · exact Or.inr ⟨d, hspec.1, hspec.2, hne, hlt⟩
    · intro h
      rcases h with h | ⟨m, hmem, hub, hne, hlt⟩
      · left
        cases hc : (previous.map Record.product_description).contains r.product_description
        · rfl
        · exact absurd (contains_iff_mem.mp hc) h
      · right
        have hdm : d = m := strLeB_antisymm (hub d hspec.1) (hspec.2 m hmem)
        subst hdm
        exact ⟨hne, hlt⟩

/-- C2 counterexample: with a previous snapshot consisting of one record
whose report date is the empty string, a current record with the same
product description and date "20240101" satisfies the claim's novelty
condition (its date strictly exceeds the maximum previous date), yet
`identify_new_recalls` returns the empty list: Python's
`most_recent_date and ...` treats the empty-string date as falsy and
skips the date clause. -/
theorem c2_empty_date_counterexample :
    identify_new_recalls [newerCurrent] [emptyDatePrev] = []
    ∧ claimNewOrig [emptyDatePrev] newerCurrent := by
  exact ⟨by decide, by decide⟩

/-- C2 amended: `identify_new_recalls` returns exactly (as a multiset)
the current records that satisfy the amended novelty condition — product
description unseen, or report date strictly above a non-empty maximum
previous date — sorted descending by report date; for an empty previous
snapshot it returns all of current. -/
theorem c2_identify_new_characterization (current previous : List Record) :
    (identify_new_recalls current previous).Perm
        (current.filter fun r => decide (claimNewAmended previous r))
    ∧ (identify_new_recalls current previous).Sorted dateGe
    ∧ (previous = [] → (identify_new_recalls current previous).Perm current) := by
  have hfun : ∀ r, isNewB previous r = decide (claimNewAmended previous r) := by
    intro r
    cases hd : decide (claimNewAmended previous r)
    · cases hb : isNewB previous r
      · rfl
      · exact absurd ((isNewB_iff previous r).mp hb) (of_decide_eq_false hd)
    · exact (isNewB_iff previous r).mpr (of_decide_eq_true hd)
  have hfilter : current.filter (isNewB previous)
      = current.filter fun r => decide (claimNewAmended previous r) :=
    List.filter_congr fun a _ => hfun a
  refine ⟨?_, ?_, ?_⟩
  · unfold identify_new_recalls
    rw [hfilter]
    exact sortByDateDesc_perm _
  · unfold identify_new_recalls
    exact sortByDateDesc_sorted _
  · intro hp
    subst hp
    unfold identify_new_recalls
    have hres : current.filter (isNewB []) = current := List.filter_eq_self.mpr fun a _ => rfl
    rw [hres]
    exact sortByDateDesc_perm current

/-- C2 witness: on a concrete one-record current list and empty previous
snapshot, the detector returns all of current. -/
theorem c2_identify_new_witness :
    (identify_new_recalls [newerCurrent] []).Perm [newerCurrent] :=
  (c2_identify_new_characterization [newerCurrent] []).2.2 rfl

set_option maxRecDepth 100000 in
set_option maxHeartbeats 2000000 in
/-- C10: the formatter classifies the truncated reason text (type and
allergens) but derives the priority from the original record; on
`lateKeywordRecord`, whose only keywords start after character 1000, the
displayed type is "other" and the allergen set empty, while the full
reason classifies as "allergen" with {peanuts} — and the priority "high"
is computed from the untruncated reason/classification. -/
theorem c10_format_truncation_divergence :
    (∀ record : Record,
        formatClassification record
          = { recall_type := categorize_recall_type (truncateText record.reason_for_recall)
              allergens := categorize_allergen (truncateText record.reason_for_recall)
              priority := determine_priority record
              states := extract_states record.distribution_pattern })
    ∧ (formatClassification lateKeywordRecord).recall_type = "other"
    ∧ (formatClassification lateKeywordRecord).allergens = []
    ∧ categorize_recall_type lateKeywordRecord.reason_for_recall = "allergen"
    ∧ categorize_allergen lateKeywordRecord.reason_for_recall = ["peanuts"]
    ∧ determine_priority lateKeywordRecord = "high" := by
  refine ⟨fun record => rfl, ?_, ?_, ?_, ?_, ?_⟩ <;> decide

/-! ### C8: the statistics payload -/

theorem statsBlocks_length (rs : List Record) :
    (statsBlocks rs).length = 4 ∨ (statsBlocks rs).length = 6 := by
  unfold statsBlocks
  dsimp only
  split
  · left
    rfl
  · right
    rfl

/-- C8 amended: the statistics generator returns the "no data" sentinel
exactly on empty input; on non-empty input it returns a payload whose
blocks are the header, the summary, and the top-recall-type section (4
blocks), plus the top-allergen section when an allergen was counted (6
blocks) — never a region section (region counts are tallied but
rendered in no block; see `c8_no_region_section`). -/
theorem c8_stats_shape (fetch : Nat → Nat → List Record) (recallsIn : List Record)
    (limit daysForStats : Nat) :
    (generate_recall_stats fetch recallsIn limit daysForStats
        = StatsOutput.message "No data available for statistics." ↔ recallsIn = [])
    ∧ (recallsIn ≠ [] →
        ∃ blocks,
          generate_recall_stats fetch recallsIn limit daysForStats
            = StatsOutput.payload blocks "FDA Recall Statistics Summary" "#2196F3"
          ∧ (blocks.length = 4 ∨ blocks.length = 6)) := by
  unfold generate_recall_stats
  cases hemp : recallsIn.isEmpty
  · have hne : recallsIn ≠ [] := by
      intro hc
      subst hc
      exact Bool.noConfusion hemp
    rw [if_neg (fun hc => Bool.noConfusion hc)]
    constructor
    · constructor
      · intro hcontr
        exact StatsOutput.noConfusion hcontr
      · intro hc
        exact absurd hc hne
    · intro _
      exact ⟨_, rfl, statsBlocks_length _⟩
  · have hempty : recallsIn = [] := List.isEmpty_iff.mp hemp
    constructor
    · simp [hempty]
    · intro hc
      exact absurd hempty hc

/-- C8 witness: on the concrete one-record input the generator yields a
payload of 6 blocks. -/
theorem c8_stats_witness :
    ∃ blocks,
      generate_recall_stats statFetch [statRecord] 1000 90
        = StatsOutput.payload blocks "FDA Recall Statistics Summary" "#2196F3"
      ∧ (blocks.length = 4 ∨ blocks.length = 6) :=
  (c8_stats_shape statFetch [statRecord] 1000 90).2 (by decide)

/-- C8 counterexample: `statRecord` is distributed to CA, so the claimed
region top-5 list would have to count CA; but the full payload for the
input `[statRecord]` consists of exactly the six blocks of
`statBlocksExpected`, none of which mentions "CA" — the payload carries
no region section. -/
theorem c8_no_region_section :
    generate_recall_stats statFetch [statRecord] 1000 90
      = StatsOutput.payload statBlocksExpected "FDA Recall Statistics Summary" "#2196F3"
    ∧ extract_states statRecord.distribution_pattern = ["CA"]
    ∧ (statBlocksExpected.all fun b => !(containsSub b.textOf "CA")) = true := by
  exact ⟨by decide, by decide, by decide⟩

end FdaBot
